import Mathlib

/-
Verification development for the split-reader layout script
(src/split_reader.js).  The script splits a document into nested flex
containers holding iframes.  We embed the URL helpers, the DIRECTION
model, the container-tree builder, the split orchestrator, the close
handler and the resize button handlers as pure Lean functions over an
explicit DOM-like tree, and prove the specification claims about them.
-/

/- ### URL model

A parsed URL value: `base` is everything before the query string
(scheme, host and path), `params` the ordered list of query parameters,
`fragment` the text after the first hash sign of the href (`none` when
the href has no hash sign at all; `some` of the empty string when the
href ends in a bare hash sign). -/

structure Url where
  base : String
  params : List (String × String)
  fragment : Option String
deriving DecidableEq

def renderPair (kv : String × String) : String := kv.1 ++ "=" ++ kv.2

def renderQuery : List (String × String) → String
  | [] => ""
  | ps => "?" ++ String.intercalate ("&") (ps.map renderPair)

/- The serialized URL, as JS reads from url.href. -/
def Url.href (u : Url) : String :=
  u.base ++ renderQuery u.params ++
    (match u.fragment with
     | none => ""
     | some s => "#" ++ s)

/- JS url.hash: empty when there is no fragment or the fragment is the
empty string, otherwise the fragment preceded by the hash sign. -/
def Url.hash (u : Url) : String :=
  match u.fragment with
  | none => ""
  | some s => if s = "" then "" else "#" ++ s

/- ### encodeURIComponent

Characters left intact are ASCII letters, digits and - _ . ! ~ * ' ( );
every other character has its UTF-8 bytes percent-encoded with capital
hex digits. -/

def hexDigitChar (n : Nat) : Char :=
  if n < 10 then Char.ofNat (48 + n) else Char.ofNat (55 + n)

def utf8Bytes (n : Nat) : List Nat :=
  if n < 128 then [n]
  else if n < 2048 then [192 + n / 64, 128 + n % 64]
  else if n < 65536 then [224 + n / 4096, 128 + (n / 64) % 64, 128 + n % 64]
  else [240 + n / 262144, 128 + (n / 4096) % 64, 128 + (n / 64) % 64, 128 + n % 64]

def percentByte (b : Nat) : String :=
  String.mk ['%', hexDigitChar (b / 16), hexDigitChar (b % 16)]

def isUnreservedChar (c : Char) : Bool :=
  c.isAlpha || c.isDigit || c == '-' || c == '_' || c == '.' || c == '!' ||
    c == '~' || c == '*' || c.toNat == 39 || c == '(' || c == ')'

def encodeURIComponent (s : String) : String :=
  String.join (s.data.map (fun c =>
    if isUnreservedChar c then String.mk [c]
    else String.join ((utf8Bytes c.toNat).map percentByte)))

/- ### URLSearchParams.set

If the list holds pairs with the given name, the first keeps its place
and gets the new value and the others are dropped; otherwise the pair is
appended at the end.  This is the semantics of searchParams.set. -/

def setFirstParam : List (String × String) → String → String → List (String × String)
  | [], _, _ => []
  | kv :: rest, k, v =>
    if kv.1 == k then (k, v) :: rest.filter (fun kv2 => !(kv2.1 == k))
    else kv :: setFirstParam rest k v

def paramsSet (ps : List (String × String)) (k v : String) : List (String × String) :=
  if ps.any (fun kv => kv.1 == k) then setFirstParam ps k v else ps ++ [(k, v)]

def countKey (ps : List (String × String)) (k : String) : Nat :=
  ps.countP (fun kv => kv.1 == k)

/- ### The URL prototype extensions of the script -/

/- The query-parameter name used by URL.prototype.addForceReloadParam:
searchParams.set of the literal name used in the source. -/
def forceReloadKey : String := "split_reader_force_reload"

/- URL.prototype.addForceReloadParam: sets the cache-busting parameter
to the current epoch milliseconds and returns the updated URL value
(the JS method mutates its receiver in place and returns this; in this
value embedding the returned value is the receiver's final state). -/
def URL.addForceReloadParam (time : Nat) (u : Url) : Url :=
  { u with params := paramsSet u.params forceReloadKey (toString time) }

/- URL.prototype.withTextFragmentFrom: builds the string
href plus, when url.hash is empty, one hash sign, plus the directive
text followed by the encoded anchor text, and parses it back.  Since
the base and the query of a parsed URL never hold a raw hash sign and
the appended directive holds none either, the parse keeps base and
params and the whole appended text lands in the fragment, after the
previous fragment when there is one. -/
def URL.withTextFragmentFrom (u : Url) (anchorText : String) : Url :=
  { u with fragment := some ((match u.fragment with
      | none => ""
      | some s => s ++ (if s = "" then "#" else "")) ++ ":~:text=" ++ encodeURIComponent anchorText) }

/- ### id generation

randomId draws a fresh token from a supply; we thread the supply
explicitly as a function from a counter. -/

structure Gen where
  idFn : Nat → String
  counter : Nat

def randomId (g : Gen) : String × Gen :=
  (g.idFn g.counter, { g with counter := g.counter + 1 })

/- ### events -/

structure Anchor where
  href : Url
  innerText : String
  frameId : Option String
deriving DecidableEq

structure MouseEvent where
  ctrlKey : Bool
  shiftKey : Bool
  altKey : Bool
  targetAnchor : Option Anchor

/- ### DIRECTION -/

namespace DIRECTION

def vertical : String := "vertical"

def horizontal : String := "horizontal"

/- valueFromModifiers: shiftKey wins over altKey, neither gives none. -/
def valueFromModifiers (event : MouseEvent) : Option String :=
  if event.shiftKey then some vertical
  else if event.altKey then some horizontal
  else none

/- inverse: the switch of the source; the default branch throws. -/
def inverse (direction : String) : Except String String :=
  if direction = vertical then .ok horizontal
  else if direction = horizontal then .ok vertical
  else .error ("Invalid direction: " ++ direction)

end DIRECTION

/- ### The DOM tree

One element node: tag, id, class list, the flex-grow style value
(none while unset) and, for iframes, the source URL.  Children are a
mutually inductive list so that all operations are structurally
recursive and reduce in the kernel. -/

mutual
inductive Node where
  | elem (tag : String) (id : String) (classes : List String)
      (flexGrow : Option ℚ) (src : Option Url) (children : NodeList)
inductive NodeList where
  | nil
  | cons (head : Node) (tail : NodeList)
end

def Node.tag : Node → String
  | .elem t _ _ _ _ _ => t

def Node.id : Node → String
  | .elem _ i _ _ _ _ => i

def Node.classes : Node → List String
  | .elem _ _ cs _ _ _ => cs

def Node.flexGrow : Node → Option ℚ
  | .elem _ _ _ fg _ _ => fg

def Node.src : Node → Option Url
  | .elem _ _ _ _ s _ => s

def Node.children : Node → NodeList
  | .elem _ _ _ _ _ ch => ch

def NodeList.length : NodeList → Nat
  | .nil => 0
  | .cons _ ns => ns.length + 1

def NodeList.get? : NodeList → Nat → Option Node
  | .nil, _ => none
  | .cons n _, 0 => some n
  | .cons _ ns, i + 1 => ns.get? i

def NodeList.push : NodeList → Node → NodeList
  | .nil, c => .cons c .nil
  | .cons n ns, c => .cons n (ns.push c)

def NodeList.modifyIdx : NodeList → Nat → (Node → Node) → NodeList
  | .nil, _, _ => .nil
  | .cons n ns, 0, f => .cons (f n) ns
  | .cons n ns, i + 1, f => .cons n (ns.modifyIdx i f)

def NodeList.removeIdx : NodeList → Nat → NodeList
  | .nil, _ => .nil
  | .cons _ ns, 0 => ns
  | .cons n ns, i + 1 => .cons n (ns.removeIdx i)

/- Addressing in the tree: a path is the list of child indices from the
document body (the root node) down to an element. -/

def nodeAt : Node → List Nat → Option Node
  | n, [] => some n
  | n, i :: p =>
    match n.children.get? i with
    | some c => nodeAt c p
    | none => none

def modifyAt : Node → List Nat → (Node → Node) → Node
  | n, [], f => f n
  | .elem t id cs fg src ch, i :: p, f =>
    .elem t id cs fg src (ch.modifyIdx i (fun c => modifyAt c p f))

/- pathLe p q: p is a prefix of q, so the element at q sits in the
subtree of the element at p. -/
def pathLe : List Nat → List Nat → Bool
  | [], _ => true
  | _ :: _, [] => false
  | i :: p, j :: q => i == j && pathLe p q

mutual
def countNodes (pr : Node → Bool) : Node → Nat
  | .elem t i cs fg src ch => (if pr (.elem t i cs fg src ch) then 1 else 0) + countNodesL pr ch
def countNodesL (pr : Node → Bool) : NodeList → Nat
  | .nil => 0
  | .cons n ns => countNodes pr n + countNodesL pr ns
end

def isFlexContainer (n : Node) : Bool := n.classes.contains ("flex-container")

def isIframeNode (n : Node) : Bool := n.tag == "iframe"

def containerCount (n : Node) : Nat := countNodes isFlexContainer n

def paneCount (n : Node) : Nat := countNodes isIframeNode n

/- document.getElementById: first match in document order; the empty
string never matches. -/

mutual
def getElemById : Node → String → Option (List Nat)
  | .elem _ i _ _ _ ch, id => if i == id then some [] else getElemByIdL ch id
def getElemByIdL : NodeList → String → Option (List Nat)
  | .nil, _ => none
  | .cons n ns, id =>
    match getElemById n id with
    | some p => some (0 :: p)
    | none =>
      match getElemByIdL ns id with
      | some (i :: p) => some ((i + 1) :: p)
      | _ => none
end

def docGetElementById (root : Node) (id : String) : Option (List Nat) :=
  if id == "" then none else getElemById root id

/- frames.searchUpFor: starting from the parent of the element, walk up
through the ancestors until one carries the class, null past the root.
The ancestor chain of a path is the chain of its shortening prefixes,
so we recurse on the reversed path. -/

def searchUpRev (root : Node) (cls : String) : List Nat → Option (List Nat)
  | [] => none
  | _ :: rest =>
    match nodeAt root rest.reverse with
    | none => none
    | some parent =>
      if parent.classes.contains cls then some rest.reverse
      else searchUpRev root cls rest

def searchUpFor (root : Node) (p : List Nat) (cls : String) : Option (List Nat) :=
  searchUpRev root cls p.reverse

/- element.remove() and element.appendChild(c), located by path. -/

def removeChildIdx (j : Nat) : Node → Node
  | .elem t i cs fg src ch => .elem t i cs fg src (ch.removeIdx j)

def removeAt (n : Node) (p : List Nat) : Node :=
  match p.getLast? with
  | none => n
  | some j => modifyAt n p.dropLast (removeChildIdx j)

def pushChild (c : Node) : Node → Node
  | .elem t i cs fg src ch => .elem t i cs fg src (ch.push c)

def appendChildAt (n : Node) (p : List Nat) (c : Node) : Node :=
  modifyAt n p (pushChild c)

/- wrapper.parentElement.style.flexGrow = Number(old value or 1) plus
or minus a half: unset reads as 1. -/
def setFlexGrowWith (f : ℚ → ℚ) : Node → Node
  | .elem t i cs fg src ch => .elem t i cs (some (f (fg.getD 1))) src ch

def setChildren (n : Node) (ch : NodeList) : Node :=
  match n with
  | .elem t i cs fg src _ => .elem t i cs fg src ch

/- ### frames.createContainer

A div with classes flex-container and container-(direction); the id
argument falls back to randomId, the optional child is appended. -/
def createContainer (g : Gen) (direction : String) (id : Option String) (child : Option Node) :
    Node × Gen :=
  let (theId, g') :=
    match id with
    | some i => (i, g)
    | none => randomId g
  let ch : NodeList :=
    match child with
    | some c => .cons c .nil
    | none => .nil
  (Node.elem ("div") theId ["flex-container", "container-" ++ direction] none none ch, g')

/- ### frames.createFrameFor

The wrapper div holds the controls div (three buttons, each with an
icon image) and then the iframe whose src is the URL with the
force-reload parameter set.  The button click handlers are modelled
below as btnCloseClick, btnExpandClick and btnColapseClick. -/

def imgNode : Node := Node.elem ("img") ("") [] none none .nil

def buttonNode (cls : String) : Node :=
  Node.elem ("button") ("") [cls] none none (.cons imgNode .nil)

def controlsNode : Node :=
  Node.elem ("div") ("") ["iframe-controls"] none none
    (.cons (buttonNode ("btn-close"))
      (.cons (buttonNode ("btn-expand"))
        (.cons (buttonNode ("btn-colapse")) .nil)))

def createFrameFor (g : Gen) (time : Nat) (url : Url) : Node × Gen :=
  let (id, g') := randomId g
  (Node.elem ("div") ("wrapper_" ++ id) ["iframe-wrapper"] none none
    (.cons controlsNode
      (.cons (Node.elem ("iframe") id [] none (some (URL.addForceReloadParam time url)) .nil)
        .nil)), g')

/- ### frames.getOrCreateContainer

When main_container is missing, the body content is replaced by a new
root container of the requested direction holding one child container
of the inverse direction around the initial frame.  Returns the body,
the path of the main container and the id supply. -/
def getOrCreateContainer (g : Gen) (direction : String) (initialFrame : Node) (body : Node) :
    Except String (Node × List Nat × Gen) :=
  match docGetElementById body ("main_container") with
  | some p => .ok (body, p, g)
  | none =>
    match DIRECTION.inverse direction with
    | .error e => .error e
    | .ok inv =>
      let (inner, g1) := createContainer g inv none (some initialFrame)
      let (mainC, g2) := createContainer g1 direction (some ("main_container")) (some inner)
      .ok (setChildren body (.cons mainC .nil), [0], g2)

/- The addFrame closure's source-pane lookup:
searchUpFor(document.getElementById(frameId), 'flex-container'),
null when the frame id is absent (the click came from the top document)
or stale, or when no flex-container ancestor exists. -/
def frameContainerLookup (body : Node) (frameId : Option String) : Option (List Nat) :=
  match frameId with
  | none => none
  | some fid =>
    match docGetElementById body fid with
    | none => none
    | some fp => searchUpFor body fp ("flex-container")

/- The addFrame closure: the failed lookup falls back to the main
container; a new container of the inverse direction around a fresh
frame is appended under the parent of the located container when that
parent carries container-(direction), else under the located container
itself.  Reading classList of a null parent throws. -/
def addFrame (g : Gen) (time : Nat) (direction : String) (body : Node) (containerPath : List Nat)
    (frameId : Option String) (url : Url) : Except String (Node × Gen) :=
  let frameContainer := (frameContainerLookup body frameId).getD containerPath
  match DIRECTION.inverse direction with
  | .error e => .error e
  | .ok inv =>
    let (newFrame, g1) := createFrameFor g time url
    let (c, g2) := createContainer g1 inv none (some newFrame)
    match frameContainer with
    | [] => .error ("TypeError: parentElement is null")
    | _ :: _ =>
      match nodeAt body frameContainer.dropLast with
      | none => .error ("TypeError: parentElement is null")
      | some parent =>
        if parent.classes.contains ("container-" ++ direction) then
          .ok (appendChildAt body frameContainer.dropLast c, g2)
        else
          .ok (appendChildAt body frameContainer c, g2)

/- ### frames.openInSplitMode

The current document URL gets the text fragment of the anchor; the
frame for it is built eagerly (and dropped unused when the tree already
exists, exactly as in the source); then the anchor target is added. -/
def openInSplitMode (g : Gen) (time : Nat) (locationUrl : Url) (anchor : Anchor)
    (direction : String) (body : Node) : Except String (Node × Gen) :=
  let currentUrl := URL.withTextFragmentFrom locationUrl anchor.innerText
  let (initialFrame, g1) := createFrameFor g time currentUrl
  match getOrCreateContainer g1 direction initialFrame body with
  | .error e => .error e
  | .ok (body', cpath, g2) => addFrame g2 time direction body' cpath anchor.frameId anchor.href

/- ### closeFrame

Remove the enclosing flex container when it has exactly one child,
else remove just the iframe; reading childElementCount of a null
container throws. -/
def closeFrame (body : Node) (id : String) : Except String Node :=
  match docGetElementById body id with
  | none => .error ("TypeError: childElementCount of null")
  | some fp =>
    match searchUpFor body fp ("flex-container") with
    | none => .error ("TypeError: childElementCount of null")
    | some cp =>
      match nodeAt body cp with
      | none => .error ("unreachable")
      | some cont =>
        if cont.children.length == 1 then .ok (removeAt body cp)
        else .ok (removeAt body fp)

/- ### handleClick

Only a click on a link with ctrl held and a direction modifier set
prevents the default navigation and opens the split; every other click
leaves the document untouched.  The Bool of the result records whether
preventDefault ran. -/
def handleClick (g : Gen) (time : Nat) (locationUrl : Url) (event : MouseEvent) (body : Node) :
    Except String (Node × Gen × Bool) :=
  match event.targetAnchor with
  | none => .ok (body, g, false)
  | some anchor =>
    if event.ctrlKey then
      match DIRECTION.valueFromModifiers event with
      | some direction =>
        match openInSplitMode g time locationUrl anchor direction body with
        | .error e => .error e
        | .ok (body', g') => .ok (body', g', true)
      | none => .ok (body, g, false)
    else .ok (body, g, false)

/- ### The wrapper control buttons

Each handler closes over the pane id and its wrapper element; expand
and colapse write the flex-grow weight of the wrapper's parent
container. -/

def btnCloseClick (body : Node) (paneId : String) : Except String Node :=
  closeFrame body paneId

def btnExpandClick (body : Node) (paneId : String) : Except String Node :=
  match docGetElementById body ("wrapper_" ++ paneId) with
  | none => .error ("detached wrapper")
  | some wp =>
    match wp with
    | [] => .error ("TypeError: style of null")
    | _ :: _ => .ok (modifyAt body wp.dropLast (setFlexGrowWith (fun q => q + 1/2)))

def btnColapseClick (body : Node) (paneId : String) : Except String Node :=
  match docGetElementById body ("wrapper_" ++ paneId) with
  | none => .error ("detached wrapper")
  | some wp =>
    match wp with
    | [] => .error ("TypeError: style of null")
    | _ :: _ => .ok (modifyAt body wp.dropLast (setFlexGrowWith (fun q => q - 1/2)))

/- ### Structural lemmas about the tree operations -/

theorem nodeEta : ∀ n : Node,
    n = .elem n.tag n.id n.classes n.flexGrow n.src n.children
  | .elem _ _ _ _ _ _ => rfl

theorem setFlexGrowWith_eq : ∀ (f : ℚ → ℚ) (n : Node),
    setFlexGrowWith f n =
      .elem n.tag n.id n.classes (some (f (n.flexGrow.getD 1))) n.src n.children
  | _, .elem _ _ _ _ _ _ => rfl

theorem pushChild_eq : ∀ (c n : Node),
    pushChild c n = .elem n.tag n.id n.classes n.flexGrow n.src (n.children.push c)
  | _, .elem _ _ _ _ _ _ => rfl

theorem get_modifyIdx_self : ∀ (ch : NodeList) (i : Nat) (f : Node → Node),
    (ch.modifyIdx i f).get? i = (ch.get? i).map f
  | .nil, _, _ => rfl
  | .cons _ _, 0, _ => rfl
  | .cons _ ns, i + 1, f => get_modifyIdx_self ns i f

theorem get_modifyIdx_ne : ∀ (ch : NodeList) (i j : Nat) (f : Node → Node), i ≠ j →
    (ch.modifyIdx i f).get? j = ch.get? j
  | .nil, _, _, _, _ => rfl
  | .cons _ _, 0, 0, _, h => absurd rfl h
  | .cons _ _, 0, _ + 1, _, _ => rfl
  | .cons _ _, _ + 1, 0, _, _ => rfl
  | .cons _ ns, i + 1, j + 1, f, h =>
      get_modifyIdx_ne ns i j f (fun e => h (by rw [e]))

theorem countL_push : ∀ (ch : NodeList) (c : Node) (pr : Node → Bool),
    countNodesL pr (ch.push c) = countNodesL pr ch + countNodes pr c
  | .nil, c, pr => by simp [NodeList.push, countNodesL]
  | .cons n ns, c, pr => by
      simp only [NodeList.push, countNodesL, countL_push ns c pr]
      omega

theorem countL_modifyIdx : ∀ (ch : NodeList) (i : Nat) (c : Node) (f : Node → Node)
    (pr : Node → Bool), ch.get? i = some c →
    countNodesL pr (ch.modifyIdx i f) + countNodes pr c =
      countNodesL pr ch + countNodes pr (f c)
  | .nil, _, _, _, _, h => by simp [NodeList.get?] at h
  | .cons n ns, 0, c, f, pr, h => by
      have e := Option.some.inj h
      subst e
      simp only [NodeList.modifyIdx, countNodesL]
      omega
  | .cons n ns, i + 1, c, f, pr, h => by
      have := countL_modifyIdx ns i c f pr h
      simp only [NodeList.modifyIdx, countNodesL]
      omega

theorem countL_removeIdx : ∀ (ch : NodeList) (i : Nat) (c : Node) (pr : Node → Bool),
    ch.get? i = some c →
    countNodesL pr (ch.removeIdx i) + countNodes pr c = countNodesL pr ch
  | .nil, _, _, _, h => by simp [NodeList.get?] at h
  | .cons n ns, 0, c, pr, h => by
      have e := Option.some.inj h
      subst e
      simp only [NodeList.removeIdx, countNodesL]
      omega
  | .cons n ns, i + 1, c, pr, h => by
      have := countL_removeIdx ns i c pr h
      simp only [NodeList.removeIdx, countNodesL]
      omega

/- A predicate that only looks at the head data of an element, not its
children; the two counters below are of this kind. -/
def childIndep (pr : Node → Bool) : Prop :=
  ∀ t i cs fg src ch ch',
    pr (.elem t i cs fg src ch) = pr (.elem t i cs fg src ch')

theorem childIndep_isFlexContainer : childIndep isFlexContainer :=
  fun _ _ _ _ _ _ _ => rfl

theorem childIndep_isIframeNode : childIndep isIframeNode :=
  fun _ _ _ _ _ _ _ => rfl

theorem modifyAt_nilPath : ∀ (n : Node) (f : Node → Node), modifyAt n [] f = f n
  | .elem _ _ _ _ _ _, _ => rfl

theorem nodeAt_modifyAt_self : ∀ (p : List Nat) (n m : Node) (f : Node → Node),
    nodeAt n p = some m → nodeAt (modifyAt n p f) p = some (f m)
  | [], n, m, f, h => by
      have e := Option.some.inj h
      subst e
      rw [modifyAt_nilPath]
      rfl
  | i :: p, .elem t id cs fg src ch, m, f, h => by
      simp only [nodeAt, Node.children] at h ⊢
      cases hg : ch.get? i with
      | none => rw [hg] at h; exact absurd h (by simp)
      | some c =>
          rw [hg] at h
          simp only [modifyAt, Node.children, get_modifyIdx_self, hg, Option.map_some]
          exact nodeAt_modifyAt_self p c m f h

theorem nodeAt_modifyAt_off : ∀ (p q : List Nat) (n : Node) (f : Node → Node),
    pathLe p q = false → pathLe q p = false →
    nodeAt (modifyAt n p f) q = nodeAt n q
  | [], _, _, _, h1, _ => by simp [pathLe] at h1
  | _ :: _, [], _, _, _, h2 => by simp [pathLe] at h2
  | i :: p, j :: q, .elem t id cs fg src ch, f, h1, h2 => by
      simp only [pathLe] at h1 h2
      by_cases hij : i = j
      · subst hij
        simp only [beq_self_eq_true, Bool.true_and] at h1 h2
        simp only [modifyAt, nodeAt, Node.children, get_modifyIdx_self]
        cases hg : ch.get? i with
        | none => rfl
        | some c =>
            simp only [Option.map_some]
            exact nodeAt_modifyAt_off p q c f h1 h2
      · simp only [modifyAt, nodeAt, Node.children,
          get_modifyIdx_ne ch i j _ hij]

theorem nodeAt_append : ∀ (q r : List Nat) (n : Node),
    nodeAt n (q ++ r) = (nodeAt n q).bind (fun m => nodeAt m r)
  | [], r, n => rfl
  | i :: q, r, n => by
      simp only [List.cons_append, nodeAt]
      cases n.children.get? i with
      | none => rfl
      | some c => exact nodeAt_append q r c

theorem count_modifyAt : ∀ (p : List Nat) (n m : Node) (f : Node → Node)
    (pr : Node → Bool), childIndep pr → nodeAt n p = some m →
    countNodes pr (modifyAt n p f) + countNodes pr m =
      countNodes pr n + countNodes pr (f m)
  | [], n, m, f, pr, _, h => by
      have e := Option.some.inj h
      subst e
      rw [modifyAt_nilPath]
      omega
  | i :: p, .elem t id cs fg src ch, m, f, pr, hpr, h => by
      simp only [nodeAt, Node.children] at h
      cases hg : ch.get? i with
      | none => rw [hg] at h; exact absurd h (by simp)
      | some c =>
          rw [hg] at h
          have hrec := count_modifyAt p c m f pr hpr h
          have hlist := countL_modifyIdx ch i c (fun c2 => modifyAt c2 p f) pr hg
          simp only [] at hlist
          simp only [modifyAt, countNodes]
          rw [hpr t id cs fg src (ch.modifyIdx i (fun c2 => modifyAt c2 p f)) ch]
          omega

theorem count_pushChild : ∀ (m c : Node) (pr : Node → Bool), childIndep pr →
    countNodes pr (pushChild c m) = countNodes pr m + countNodes pr c
  | .elem t i cs fg src ch, c, pr, hpr => by
      simp only [pushChild, countNodes, countL_push]
      rw [hpr t i cs fg src (ch.push c) ch]
      omega

theorem count_appendChildAt (p : List Nat) (n m c : Node) (pr : Node → Bool)
    (hpr : childIndep pr) (h : nodeAt n p = some m) :
    countNodes pr (appendChildAt n p c) = countNodes pr n + countNodes pr c := by
  have h1 := count_modifyAt p n m (pushChild c) pr hpr h
  have h2 := count_pushChild m c pr hpr
  unfold appendChildAt
  omega

theorem count_removeChildIdx : ∀ (m c : Node) (j : Nat) (pr : Node → Bool),
    childIndep pr → m.children.get? j = some c →
    countNodes pr (removeChildIdx j m) + countNodes pr c = countNodes pr m
  | .elem t i cs fg src ch, c, j, pr, hpr, h => by
      simp only [Node.children] at h
      have := countL_removeIdx ch j c pr h
      simp only [removeChildIdx, countNodes]
      rw [hpr t i cs fg src (ch.removeIdx j) ch]
      omega

theorem count_removeAt (pq : List Nat) (j : Nat) (n m c : Node) (pr : Node → Bool)
    (hpr : childIndep pr) (hq : nodeAt n pq = some m)
    (hc : m.children.get? j = some c) :
    countNodes pr (removeAt n (pq ++ [j])) + countNodes pr c = countNodes pr n := by
  have h1 : (pq ++ [j]).getLast? = some j := by simp
  have h2 : (pq ++ [j]).dropLast = pq := by simp
  have h3 := count_modifyAt pq n m (removeChildIdx j) pr hpr hq
  have h4 := count_removeChildIdx m c j pr hpr hc
  have hr : removeAt n (pq ++ [j]) = modifyAt n pq (removeChildIdx j) := by
    simp only [removeAt, h1, h2]
  rw [hr]
  omega

/- ### Lemmas about searchParams.set -/

theorem countKey_filterNe (ps : List (String × String)) (k : String) :
    countKey (ps.filter (fun kv => !(kv.1 == k))) k = 0 := by
  simp only [countKey, List.countP_eq_zero]
  intro a ha
  rw [List.mem_filter] at ha
  simpa using ha.2

theorem countKey_setFirstParam : ∀ (ps : List (String × String)) (k v : String),
    ps.any (fun kv => kv.1 == k) = true → countKey (setFirstParam ps k v) k = 1
  | [], k, v, h => by rw [List.any_nil] at h; exact Bool.noConfusion h
  | kv :: rest, k, v, h => by
      by_cases hk : (kv.1 == k) = true
      · have hrest := countKey_filterNe rest k
        simp only [countKey] at hrest ⊢
        simp [setFirstParam, hk, List.countP_cons, hrest]
      · simp only [List.any_cons, hk, Bool.false_or] at h
        have := countKey_setFirstParam rest k v h
        simp only [countKey] at this ⊢
        simp [setFirstParam, hk, List.countP_cons, this]

theorem countKey_paramsSet (ps : List (String × String)) (k v : String) :
    countKey (paramsSet ps k v) k = 1 := by
  unfold paramsSet
  by_cases h : ps.any (fun kv => kv.1 == k) = true
  · rw [if_pos h]
    exact countKey_setFirstParam ps k v h
  · rw [if_neg h]
    have h0 : ps.countP (fun kv => kv.1 == k) = 0 := by
      rw [List.countP_eq_zero]
      intro a ha hpa
      exact h (List.any_eq_true.mpr ⟨a, ha, hpa⟩)
    simp only [countKey, List.countP_append, h0]
    simp [List.countP_cons]

theorem paramsSet_absent (ps : List (String × String)) (k v : String)
    (h : countKey ps k = 0) : paramsSet ps k v = ps ++ [(k, v)] := by
  unfold paramsSet
  rw [if_neg]
  intro hany
  obtain ⟨a, ha, hpa⟩ := List.any_eq_true.mp hany
  rw [countKey, List.countP_eq_zero] at h
  exact h a ha hpa

theorem filterNe_idem (l : List (String × String)) (k : String) :
    (l.filter (fun kv => !(kv.1 == k))).filter (fun kv => !(kv.1 == k)) =
      l.filter (fun kv => !(kv.1 == k)) := by
  rw [List.filter_eq_self]
  intro a ha
  exact (List.mem_filter.mp ha).2

theorem setFirst_setFirst : ∀ (ps : List (String × String)) (k v1 v2 : String),
    setFirstParam (setFirstParam ps k v1) k v2 = setFirstParam ps k v2
  | [], _, _, _ => rfl
  | kv :: rest, k, v1, v2 => by
      by_cases hk : (kv.1 == k) = true
      · simp [setFirstParam, hk, filterNe_idem]
      · simp only [setFirstParam, hk, if_false]
        simp [setFirstParam, hk]
        exact setFirst_setFirst rest k v1 v2

theorem setFirst_append_absent : ∀ (ps : List (String × String)) (k v1 v2 : String),
    countKey ps k = 0 → setFirstParam (ps ++ [(k, v1)]) k v2 = ps ++ [(k, v2)]
  | [], k, v1, v2, _ => by
      simp [setFirstParam]
  | kv :: rest, k, v1, v2, h => by
      simp only [countKey, List.countP_cons] at h
      have hk : (kv.1 == k) = false := by
        by_cases hb : (kv.1 == k) = true
        · simp [hb] at h
        · exact Bool.not_eq_true _ |>.mp hb
      have hr : countKey rest k = 0 := by
        simp only [hk] at h
        simpa [countKey] using h
      simp only [List.cons_append]
      simp [setFirstParam, hk]
      exact setFirst_append_absent rest k v1 v2 hr

theorem paramsSet_paramsSet (ps : List (String × String)) (k v1 v2 : String) :
    paramsSet (paramsSet ps k v1) k v2 = paramsSet ps k v2 := by
  by_cases h : ps.any (fun kv => kv.1 == k) = true
  · have e1 : paramsSet ps k v1 = setFirstParam ps k v1 := by
      unfold paramsSet; rw [if_pos h]
    have hc := countKey_setFirstParam ps k v1 h
    have h1 : (setFirstParam ps k v1).any (fun kv => kv.1 == k) = true := by
      by_contra hn
      have h0 : countKey (setFirstParam ps k v1) k = 0 := by
        rw [countKey, List.countP_eq_zero]
        intro a ha hpa
        exact hn (List.any_eq_true.mpr ⟨a, ha, hpa⟩)
      omega
    rw [e1]
    conv_lhs => unfold paramsSet
    rw [if_pos h1]
    unfold paramsSet
    rw [if_pos h]
    exact setFirst_setFirst ps k v1 v2
  · have h0 : countKey ps k = 0 := by
      rw [countKey, List.countP_eq_zero]
      intro a ha hpa
      exact h (List.any_eq_true.mpr ⟨a, ha, hpa⟩)
    rw [paramsSet_absent ps k v1 h0, paramsSet_absent ps k v2 h0]
    have hany : (ps ++ [(k, v1)]).any (fun kv => kv.1 == k) = true := by
      refine List.any_eq_true.mpr ⟨(k, v1), ?_, ?_⟩
      · simp
      · simp
    unfold paramsSet
    rw [if_pos hany]
    exact setFirst_append_absent ps k v1 v2 h0

/- ### Abbreviations for the nodes built by a split, and test fixtures -/

def plainBody (ch : NodeList) : Node := Node.elem ("body") ("") [] none none ch

def splitPaneNode (idStr : String) (time : Nat) (url : Url) : Node :=
  Node.elem ("iframe") idStr [] none (some (URL.addForceReloadParam time url)) .nil

def splitWrapperNode (idStr : String) (time : Nat) (url : Url) : Node :=
  Node.elem ("div") ("wrapper_" ++ idStr) ["iframe-wrapper"] none none
    (.cons controlsNode (.cons (splitPaneNode idStr time url) .nil))

def splitContainerNode (cid : String) (inv : String) (wrapper : Node) : Node :=
  Node.elem ("div") cid ["flex-container", "container-" ++ inv] none none
    (.cons wrapper .nil)

/- The container a non-first split attaches: built from the two ids the
supply hands out after the one spent on the discarded initial frame. -/
def newSplitContainer (g : Gen) (inv : String) (time : Nat) (url : Url) : Node :=
  splitContainerNode (g.idFn (g.counter + 2)) inv
    (splitWrapperNode (g.idFn (g.counter + 1)) time url)

def okBody : Except String (Node × Gen) → Option Node
  | .ok (b, _) => some b
  | .error _ => none

theorem createFrameFor_eq (g : Gen) (t : Nat) (u : Url) :
    createFrameFor g t u =
      (splitWrapperNode (g.idFn g.counter) t u, { g with counter := g.counter + 1 }) := rfl

theorem containerCount_splitContainer (cid inv idStr : String) (t : Nat) (u : Url) :
    containerCount (splitContainerNode cid inv (splitWrapperNode idStr t u)) = 1 := rfl

theorem paneCount_splitContainer (cid inv idStr : String) (t : Nat) (u : Url) :
    paneCount (splitContainerNode cid inv (splitWrapperNode idStr t u)) = 1 := rfl

/- ### Concrete fixtures used by witnesses and counterexamples -/

def gen0 : Gen := ⟨fun n => String.mk (List.replicate (n + 1) ('a')), 0⟩

def gen1 : Gen := ⟨fun n => String.mk (List.replicate (n + 1) ('b')), 0⟩

def urlHome : Url := ⟨"https://ex.com/page", [], none⟩

def urlLink : Url := ⟨"https://docs.example.com/page", [], none⟩

def anchorTop : Anchor := ⟨urlLink, "click me", none⟩

/- The document after one vertical split from an empty page: one root
container holding two inverse containers, each with one pane. -/
def body1 : Node :=
  (okBody (openInSplitMode gen0 5 urlHome anchorTop DIRECTION.vertical
    (plainBody .nil))).getD (plainBody .nil)

def mainNode1 : Node := (nodeAt body1 [0]).getD (plainBody .nil)

def innerNode1 : Node := (nodeAt body1 [0, 0]).getD (plainBody .nil)

def container1 : Node := (nodeAt body1 [0, 1]).getD (plainBody .nil)

def src1 : Option Url := Node.src ((nodeAt body1 [0, 1, 0, 1]).getD (plainBody .nil))

/- ### Claim C7 -/

/-- Claim C7: inverse is total on the two direction values, swapping
vertical and horizontal, and any other string makes it fail fast with
the invalid-direction error. -/
theorem C7_inverse_total_failfast :
    DIRECTION.inverse DIRECTION.vertical = .ok DIRECTION.horizontal ∧
    DIRECTION.inverse DIRECTION.horizontal = .ok DIRECTION.vertical ∧
    ∀ s : String, s ≠ DIRECTION.vertical → s ≠ DIRECTION.horizontal →
      DIRECTION.inverse s = .error ("Invalid direction: " ++ s) := by
  refine ⟨rfl, ?_, ?_⟩
  · unfold DIRECTION.inverse
    rw [if_neg (by decide), if_pos rfl]
  · intro s h1 h2
    unfold DIRECTION.inverse
    rw [if_neg h1, if_neg h2]

/-- Claim C7 witness: the theorem applied to the invalid direction
string diagonal. -/
theorem C7_inverse_total_failfast_witness :
    ("diagonal" : String) ≠ DIRECTION.vertical ∧
    ("diagonal" : String) ≠ DIRECTION.horizontal ∧
    DIRECTION.inverse ("diagonal") = .error ("Invalid direction: diagonal") :=
  ⟨by decide, by decide,
    C7_inverse_total_failfast.2.2 ("diagonal") (by decide) (by decide)⟩

/- ### Claim C9 -/

/-- Claim C9: setting the force-reload parameter always leaves exactly
one parameter of that name, and a second application overwrites the
first one completely, so applications never accumulate; the receiver's
final state is the returned URL value. -/
theorem C9_force_reload_overwrites (u : Url) (t1 t2 : Nat) :
    countKey (URL.addForceReloadParam t1 u).params forceReloadKey = 1 ∧
    URL.addForceReloadParam t2 (URL.addForceReloadParam t1 u) =
      URL.addForceReloadParam t2 u := by
  constructor
  · exact countKey_paramsSet u.params forceReloadKey (toString t1)
  · simp [URL.addForceReloadParam, paramsSet_paramsSet]

/- ### Claim C10 -/

/-- Claim C10: a click without ctrl, or without an enclosing anchor, or
with neither shift nor alt, changes nothing: the body is returned as it
was and preventDefault does not run. -/
theorem C10_handleClick_noop (g : Gen) (t : Nat) (loc : Url) (event : MouseEvent)
    (body : Node)
    (h : event.ctrlKey = false ∨ event.targetAnchor = none ∨
      (event.shiftKey = false ∧ event.altKey = false)) :
    handleClick g t loc event body = .ok (body, g, false) := by
  unfold handleClick
  rcases h with h | h | ⟨h1, h2⟩
  · cases ha : event.targetAnchor with
    | none => simp
    | some a => simp [h]
  · simp [h]
  · cases ha : event.targetAnchor with
    | none => simp
    | some a => simp [DIRECTION.valueFromModifiers, h1, h2]

def eventPlain : MouseEvent := ⟨false, true, false, some anchorTop⟩

/-- Claim C10 witness: a shift-click without ctrl on a link leaves the
empty-page body untouched. -/
theorem C10_handleClick_noop_witness :
    eventPlain.ctrlKey = false ∧
    handleClick gen0 5 urlHome eventPlain (plainBody .nil) =
      .ok (plainBody .nil, gen0, false) :=
  ⟨rfl, C10_handleClick_noop gen0 5 urlHome eventPlain (plainBody .nil) (Or.inl rfl)⟩

/- ### Claim C4 -/

def urlFrag : Url := ⟨"https://a.com/p", [], some ("sec")⟩

/-- Claim C4 counterexample: on a URL that already has the fragment sec,
the operation does not leave the fragment unchanged: the directive text
is appended right after it. -/
theorem C4_counterexample :
    (URL.withTextFragmentFrom urlFrag ("x")).fragment = some ("sec:~:text=x") ∧
    ¬ (URL.withTextFragmentFrom urlFrag ("x")).fragment = urlFrag.fragment := by
  constructor
  · decide
  · decide

theorem hashAppend_ne_empty (s : String) : ("#" ++ s) ≠ "" := by
  intro h
  have := congrArg String.length h
  simp [String.length_append] at this
  exact absurd this.1 (by decide)

/-- Claim C4 (amended): the operation keeps base and query and always
appends the text directive to the fragment; the hash separator is
inserted only when the URL has no nonempty fragment, so a URL that
already carries a fragment keeps it as a prefix and gets the directive
appended after it.  The href equation is the exact string the source
builds. -/
theorem C4_text_fragment_amended (u : Url) (anchorText : String) :
    (URL.withTextFragmentFrom u anchorText).base = u.base ∧
    (URL.withTextFragmentFrom u anchorText).params = u.params ∧
    (u.fragment = none →
      (URL.withTextFragmentFrom u anchorText).fragment =
        some (":~:text=" ++ encodeURIComponent anchorText)) ∧
    (∀ s : String, u.fragment = some s → s ≠ "" →
      (URL.withTextFragmentFrom u anchorText).fragment =
        some (s ++ ":~:text=" ++ encodeURIComponent anchorText)) ∧
    (URL.withTextFragmentFrom u anchorText).href =
      u.href ++ (if u.hash = "" then "#" else "") ++ ":~:text=" ++
        encodeURIComponent anchorText := by
  refine ⟨rfl, rfl, ?_, ?_, ?_⟩
  · intro h
    simp [URL.withTextFragmentFrom, h, String.empty_append]
  · intro s hs hne
    simp [URL.withTextFragmentFrom, hs, hne, String.append_empty]
  · cases hf : u.fragment with
    | none =>
        simp [URL.withTextFragmentFrom, Url.href, Url.hash, hf,
          String.append_assoc, String.append_empty, String.empty_append]
        rfl
    | some s =>
        by_cases hne : s = ""
        · subst hne
          simp [URL.withTextFragmentFrom, Url.href, Url.hash, hf,
            String.append_assoc, String.append_empty, String.empty_append]
          rfl
        · simp [URL.withTextFragmentFrom, Url.href, Url.hash, hf, hne,
            hashAppend_ne_empty s, String.append_assoc, String.append_empty]

/-- Claim C4 witness: the theorem applied to a URL without a fragment
and to one with the fragment sec. -/
theorem C4_text_fragment_amended_witness :
    urlHome.fragment = none ∧
    (URL.withTextFragmentFrom urlHome ("x")).fragment = some (":~:text=x") ∧
    urlFrag.fragment = some ("sec") ∧
    (URL.withTextFragmentFrom urlFrag ("x")).fragment = some ("sec:~:text=x") :=
  ⟨rfl,
    ((C4_text_fragment_amended urlHome ("x")).2.2.1 rfl).trans (by decide),
    rfl,
    ((C4_text_fragment_amended urlFrag ("x")).2.2.2.1 ("sec") rfl (by decide)).trans
      (by decide)⟩

/- ### Claim C5 -/

/-- Claim C5 counterexample: the pane created for the anchor of the
first split loads the anchor URL with one added query parameter, but
its name is split underscore reader underscore force underscore reload,
not force underscore reload; no parameter of the latter name exists. -/
theorem C5_counterexample :
    src1 = some ⟨"https://docs.example.com/page", [(forceReloadKey, "5")], none⟩ ∧
    countKey [(forceReloadKey, "5")] ("force_reload") = 0 ∧
    ¬ forceReloadKey = "force_reload" := by
  refine ⟨by decide, by decide, by decide⟩

/-- Claim C5 (amended): every pane the factory creates loads its URL
with the cache-busting parameter named by the source set to the epoch
milliseconds; when the URL did not carry that parameter it is appended
at the end of the query and nothing else of the URL changes. -/
theorem C5_force_reload_amended (g : Gen) (t : Nat) (u : Url)
    (habs : countKey u.params forceReloadKey = 0) :
    (createFrameFor g t u).1 = splitWrapperNode (g.idFn g.counter) t u ∧
    (nodeAt (createFrameFor g t u).1 [1]).bind Node.src =
      some (URL.addForceReloadParam t u) ∧
    countKey (URL.addForceReloadParam t u).params forceReloadKey = 1 ∧
    (URL.addForceReloadParam t u).params = u.params ++ [(forceReloadKey, toString t)] ∧
    (URL.addForceReloadParam t u).base = u.base ∧
    (URL.addForceReloadParam t u).fragment = u.fragment := by
  refine ⟨rfl, rfl, countKey_paramsSet u.params forceReloadKey (toString t), ?_, rfl, rfl⟩
  exact paramsSet_absent u.params forceReloadKey (toString t) habs

/-- Claim C5 witness: the theorem applied to the fixture link URL. -/
theorem C5_force_reload_amended_witness :
    countKey urlLink.params forceReloadKey = 0 ∧
    (URL.addForceReloadParam 5 urlLink).params = [(forceReloadKey, "5")] :=
  ⟨by decide,
    (C5_force_reload_amended gen0 5 urlLink (by decide)).2.2.2.1.trans (by decide)⟩

/- ### Claim C8 -/

/-- Claim C8: the expand and colapse buttons of a pane change only the
flex-grow weight of the pane's immediate container, by exactly one
half up or down from the current value, reading an unset weight as 1,
without any bound; every node outside that container's subtree, in
particular every sibling, is untouched. -/
theorem C8_grow_shrink (body : Node) (paneId : String) (wp : List Nat) (parentN : Node)
    (h1 : docGetElementById body ("wrapper_" ++ paneId) = some wp)
    (h2 : wp ≠ [])
    (h3 : nodeAt body wp.dropLast = some parentN) :
    btnExpandClick body paneId =
      .ok (modifyAt body wp.dropLast (setFlexGrowWith (fun q => q + 1/2))) ∧
    btnColapseClick body paneId =
      .ok (modifyAt body wp.dropLast (setFlexGrowWith (fun q => q - 1/2))) ∧
    nodeAt (modifyAt body wp.dropLast (setFlexGrowWith (fun q => q + 1/2))) wp.dropLast =
      some (.elem parentN.tag parentN.id parentN.classes
        (some (parentN.flexGrow.getD 1 + 1/2)) parentN.src parentN.children) ∧
    nodeAt (modifyAt body wp.dropLast (setFlexGrowWith (fun q => q - 1/2))) wp.dropLast =
      some (.elem parentN.tag parentN.id parentN.classes
        (some (parentN.flexGrow.getD 1 - 1/2)) parentN.src parentN.children) ∧
    (∀ q : List Nat, pathLe wp.dropLast q = false → pathLe q wp.dropLast = false →
      nodeAt (modifyAt body wp.dropLast (setFlexGrowWith (fun q2 => q2 + 1/2))) q =
          nodeAt body q ∧
      nodeAt (modifyAt body wp.dropLast (setFlexGrowWith (fun q2 => q2 - 1/2))) q =
          nodeAt body q) := by
  refine ⟨?_, ?_, ?_, ?_, ?_⟩
  · unfold btnExpandClick
    rw [h1]
    cases wp with
    | nil => exact absurd rfl h2
    | cons i p => rfl
  · unfold btnColapseClick
    rw [h1]
    cases wp with
    | nil => exact absurd rfl h2
    | cons i p => rfl
  · rw [nodeAt_modifyAt_self wp.dropLast body parentN _ h3, setFlexGrowWith_eq]
  · rw [nodeAt_modifyAt_self wp.dropLast body parentN _ h3, setFlexGrowWith_eq]
  · intro q hq1 hq2
    exact ⟨nodeAt_modifyAt_off wp.dropLast q body _ hq1 hq2,
      nodeAt_modifyAt_off wp.dropLast q body _ hq1 hq2⟩

/-- Claim C8 witness: expanding the first pane of the two-pane fixture
document edits exactly the flex weight of the inner container. -/
theorem C8_grow_shrink_witness :
    docGetElementById body1 ("wrapper_a") = some [0, 0, 0] ∧
    btnExpandClick body1 ("a") =
      .ok (modifyAt body1 [0, 0] (setFlexGrowWith (fun q => q + 1/2))) :=
  ⟨by decide,
    (C8_grow_shrink body1 ("a") [0, 0, 0] innerNode1 (by decide) (by decide) rfl).1⟩

/- ### Claim C3 -/

theorem removeAt_decomp (body : Node) (p : List Nat) (m : Node) (hne : p ≠ [])
    (hm : nodeAt body p = some m) :
    ∃ par j, nodeAt body p.dropLast = some par ∧ par.children.get? j = some m ∧
      removeAt body p = modifyAt body p.dropLast (removeChildIdx j) := by
  have hsplit := List.dropLast_append_getLast hne
  have hm' : nodeAt body (p.dropLast ++ [p.getLast hne]) = some m := by
    rw [hsplit]; exact hm
  rw [nodeAt_append] at hm'
  cases hpar : nodeAt body p.dropLast with
  | none => rw [hpar] at hm'; simp at hm'
  | some par =>
      rw [hpar] at hm'
      simp only [Option.bind] at hm'
      refine ⟨par, p.getLast hne, rfl, ?_, ?_⟩
      · simp only [nodeAt] at hm'
        cases hg : par.children.get? (p.getLast hne) with
        | none => rw [hg] at hm'; simp at hm'
        | some c =>
            rw [hg] at hm'
            simp only [nodeAt] at hm'
            exact hm'
      · have hl : p.getLast? = some (p.getLast hne) := p.getLast?_eq_getLast hne
        simp only [removeAt, hl, List.dropLast_append_getLast]

/-- Claim C3: for a pane present in the tree, closeFrame removes the
whole enclosing flex container when that container has exactly one
child, and otherwise removes only the pane's iframe element: the pane
count drops by one, the container count is unchanged, and every node
outside the pane's parent subtree, in particular every sibling of the
pane, is exactly as before. -/
theorem C3_closeFrame_dichotomy (body : Node) (id fid : String) (fp cp : List Nat)
    (osrc : Option Url) (contN : Node)
    (h1 : docGetElementById body id = some fp)
    (h2 : nodeAt body fp = some (.elem ("iframe") fid [] none osrc .nil))
    (h3 : searchUpFor body fp ("flex-container") = some cp)
    (h4 : nodeAt body cp = some contN)
    (h5 : cp ≠ [])
    (h6 : fp ≠ []) :
    (contN.children.length = 1 →
      closeFrame body id = .ok (removeAt body cp) ∧
      paneCount (removeAt body cp) + paneCount contN = paneCount body ∧
      containerCount (removeAt body cp) + containerCount contN = containerCount body) ∧
    (contN.children.length ≠ 1 →
      closeFrame body id = .ok (removeAt body fp) ∧
      paneCount (removeAt body fp) + 1 = paneCount body ∧
      containerCount (removeAt body fp) = containerCount body ∧
      (∀ q : List Nat, pathLe fp.dropLast q = false → pathLe q fp.dropLast = false →
        nodeAt (removeAt body fp) q = nodeAt body q)) := by
  obtain ⟨cpar, cj, hcpar, hcget, hcrem⟩ := removeAt_decomp body cp contN h5 h4
  obtain ⟨fpar, fj, hfpar, hfget, hfrem⟩ := removeAt_decomp body fp _ h6 h2
  constructor
  · intro hlen
    refine ⟨?_, ?_, ?_⟩
    · simp [closeFrame, h1, h3, h4, hlen]
    · have hx := count_modifyAt cp.dropLast body cpar (removeChildIdx cj)
        isIframeNode childIndep_isIframeNode hcpar
      have hy := count_removeChildIdx cpar contN cj isIframeNode
        childIndep_isIframeNode hcget
      rw [hcrem]
      simp only [paneCount]
      omega
    · have hx := count_modifyAt cp.dropLast body cpar (removeChildIdx cj)
        isFlexContainer childIndep_isFlexContainer hcpar
      have hy := count_removeChildIdx cpar contN cj isFlexContainer
        childIndep_isFlexContainer hcget
      rw [hcrem]
      simp only [containerCount]
      omega
  · intro hlen
    refine ⟨?_, ?_, ?_, ?_⟩
    · simp [closeFrame, h1, h3, h4, hlen]
    · have hx := count_modifyAt fp.dropLast body fpar (removeChildIdx fj)
        isIframeNode childIndep_isIframeNode hfpar
      have hy := count_removeChildIdx fpar _ fj isIframeNode
        childIndep_isIframeNode hfget
      have hz : countNodes isIframeNode (Node.elem ("iframe") fid [] none osrc .nil) = 1 := rfl
      rw [hfrem]
      simp only [paneCount]
      omega
    · have hx := count_modifyAt fp.dropLast body fpar (removeChildIdx fj)
        isFlexContainer childIndep_isFlexContainer hfpar
      have hy := count_removeChildIdx fpar _ fj isFlexContainer
        childIndep_isFlexContainer hfget
      have hz : countNodes isFlexContainer (Node.elem ("iframe") fid [] none osrc .nil) = 0 := rfl
      rw [hfrem]
      simp only [containerCount]
      omega
    · intro q hq1 hq2
      rw [hfrem]
      exact nodeAt_modifyAt_off fp.dropLast q body _ hq1 hq2

/-- Claim C3 witness: closing the only pane of the second container of
the fixture document removes that container. -/
theorem C3_closeFrame_dichotomy_witness :
    docGetElementById body1 ("aaa") = some [0, 1, 0, 1] ∧
    container1.children.length = 1 ∧
    closeFrame body1 ("aaa") = .ok (removeAt body1 [0, 1]) :=
  ⟨by decide, by decide,
    ((C3_closeFrame_dichotomy body1 ("aaa") ("aaa") [0, 1, 0, 1] [0, 1] src1 container1
      (by decide) rfl (by decide) rfl (by decide) (by decide)).1 (by decide)).1⟩

/- ### Reduction lemmas for the orchestrator -/

theorem openInSplitMode_existing (g : Gen) (t : Nat) (loc : Url) (anchor : Anchor)
    (direction : String) (body : Node) (mp : List Nat)
    (hmain : docGetElementById body ("main_container") = some mp) :
    openInSplitMode g t loc anchor direction body =
      addFrame { g with counter := g.counter + 1 } t direction body mp
        anchor.frameId anchor.href := by
  unfold openInSplitMode
  simp only [createFrameFor_eq, getOrCreateContainer, hmain]

theorem addFrame_resolved (g : Gen) (t : Nat) (direction inv : String) (body : Node)
    (containerPath : List Nat) (frameId : Option String) (url : Url)
    (fc : List Nat) (parentN : Node)
    (hfc : (frameContainerLookup body frameId).getD containerPath = fc)
    (hinv : DIRECTION.inverse direction = .ok inv)
    (hne : fc ≠ [])
    (hpar : nodeAt body fc.dropLast = some parentN) :
    addFrame g t direction body containerPath frameId url =
      .ok ((if parentN.classes.contains ("container-" ++ direction) then
          appendChildAt body fc.dropLast
            (splitContainerNode (g.idFn (g.counter + 1)) inv
              (splitWrapperNode (g.idFn g.counter) t url))
        else
          appendChildAt body fc
            (splitContainerNode (g.idFn (g.counter + 1)) inv
              (splitWrapperNode (g.idFn g.counter) t url))),
        { g with counter := g.counter + 2 }) := by
  unfold addFrame
  rw [hfc, hinv]
  simp only [createFrameFor_eq, createContainer, randomId]
  cases fc with
  | nil => exact absurd rfl hne
  | cons i p =>
      rw [hpar]
      by_cases hb : parentN.classes.contains ("container-" ++ direction) = true
      · have hmem : ("container-" ++ direction) ∈ parentN.classes := by simpa using hb
        simp [hb, hmem, splitContainerNode, splitWrapperNode, splitPaneNode]
      · have hmem : ¬ ("container-" ++ direction) ∈ parentN.classes := by simpa using hb
        simp [hb, hmem, splitContainerNode, splitWrapperNode, splitPaneNode]

theorem countNodes_flex_newSplit (g : Gen) (inv : String) (t : Nat) (u : Url) :
    countNodes isFlexContainer (newSplitContainer g inv t u) = 1 := rfl

theorem countNodes_iframe_newSplit (g : Gen) (inv : String) (t : Nat) (u : Url) :
    countNodes isIframeNode (newSplitContainer g inv t u) = 1 := rfl

/- ### Claim C1 -/

/-- Claim C1: on a split after the first, exactly one new container is
created, of the inverse of the requested direction, holding exactly the
one new pane; it is appended under the parent of the source pane's
enclosing container when that parent carries the requested direction's
class, and directly under the enclosing container otherwise; in both
cases the flex-container count grows by exactly one and the pane count
by exactly one. -/
theorem C1_subsequent_split (g : Gen) (t : Nat) (loc : Url) (anchor : Anchor)
    (direction inv : String) (body : Node) (mp fp cp : List Nat) (fid : String)
    (parentN contN : Node)
    (hinv : DIRECTION.inverse direction = .ok inv)
    (hmain : docGetElementById body ("main_container") = some mp)
    (hfid : anchor.frameId = some fid)
    (hlook : docGetElementById body fid = some fp)
    (hsrch : searchUpFor body fp ("flex-container") = some cp)
    (hcp : cp ≠ [])
    (hpar : nodeAt body cp.dropLast = some parentN)
    (hcont : nodeAt body cp = some contN) :
    openInSplitMode g t loc anchor direction body =
      .ok ((if parentN.classes.contains ("container-" ++ direction) then
          appendChildAt body cp.dropLast (newSplitContainer g inv t anchor.href)
        else appendChildAt body cp (newSplitContainer g inv t anchor.href)),
        { g with counter := g.counter + 3 }) ∧
    containerCount (appendChildAt body cp.dropLast (newSplitContainer g inv t anchor.href)) =
      containerCount body + 1 ∧
    containerCount (appendChildAt body cp (newSplitContainer g inv t anchor.href)) =
      containerCount body + 1 ∧
    paneCount (appendChildAt body cp.dropLast (newSplitContainer g inv t anchor.href)) =
      paneCount body + 1 ∧
    paneCount (appendChildAt body cp (newSplitContainer g inv t anchor.href)) =
      paneCount body + 1 ∧
    (newSplitContainer g inv t anchor.href).children.length = 1 ∧
    paneCount (newSplitContainer g inv t anchor.href) = 1 := by
  refine ⟨?_, ?_, ?_, ?_, ?_, rfl, rfl⟩
  · rw [openInSplitMode_existing g t loc anchor direction body mp hmain]
    have hfc : (frameContainerLookup body anchor.frameId).getD mp = cp := by
      simp [frameContainerLookup, hfid, hlook, hsrch]
    exact addFrame_resolved { g with counter := g.counter + 1 } t direction inv body mp
      anchor.frameId anchor.href cp parentN hfc hinv hcp hpar
  · have h1 := count_appendChildAt cp.dropLast body parentN
      (newSplitContainer g inv t anchor.href) isFlexContainer childIndep_isFlexContainer hpar
    have h2 := countNodes_flex_newSplit g inv t anchor.href
    simp only [containerCount]
    omega
  · have h1 := count_appendChildAt cp body contN
      (newSplitContainer g inv t anchor.href) isFlexContainer childIndep_isFlexContainer hcont
    have h2 := countNodes_flex_newSplit g inv t anchor.href
    simp only [containerCount]
    omega
  · have h1 := count_appendChildAt cp.dropLast body parentN
      (newSplitContainer g inv t anchor.href) isIframeNode childIndep_isIframeNode hpar
    have h2 := countNodes_iframe_newSplit g inv t anchor.href
    simp only [paneCount]
    omega
  · have h1 := count_appendChildAt cp body contN
      (newSplitContainer g inv t anchor.href) isIframeNode childIndep_isIframeNode hcont
    have h2 := countNodes_iframe_newSplit g inv t anchor.href
    simp only [paneCount]
    omega

def anchorPane : Anchor := ⟨urlLink, "more", some ("aaa")⟩

/-- Claim C1 witness: splitting again from the second pane of the
fixture document, in the root direction, grows the container count by
exactly one. -/
theorem C1_subsequent_split_witness :
    docGetElementById body1 ("main_container") = some [0] ∧
    searchUpFor body1 [0, 1, 0, 1] ("flex-container") = some [0, 1] ∧
    containerCount (appendChildAt body1 [0]
      (newSplitContainer gen1 DIRECTION.horizontal 7 urlLink)) = containerCount body1 + 1 :=
  ⟨by decide, by decide,
    (C1_subsequent_split gen1 7 urlHome anchorPane DIRECTION.vertical DIRECTION.horizontal
      body1 [0] [0, 1, 0, 1] [0, 1] ("aaa") mainNode1 container1 rfl (by decide) rfl
      (by decide) (by decide) (by decide) rfl rfl).2.1⟩

/- ### Claim C6 -/

/-- Claim C6: when the source pane of a split cannot be located, the
orchestrator does not fail: it roots the split at the main container,
appends the new sub-container there, and still produces exactly one new
pane. -/
theorem C6_missing_source_fallback (g : Gen) (t : Nat) (loc : Url) (anchor : Anchor)
    (direction inv : String) (body : Node) (mp : List Nat) (mainN parentN : Node)
    (hinv : DIRECTION.inverse direction = .ok inv)
    (hmain : docGetElementById body ("main_container") = some mp)
    (hlook : frameContainerLookup body anchor.frameId = none)
    (hmp : mp ≠ [])
    (hnode : nodeAt body mp = some mainN)
    (hpar : nodeAt body mp.dropLast = some parentN)
    (hcls : parentN.classes.contains ("container-" ++ direction) = false) :
    openInSplitMode g t loc anchor direction body =
      .ok (appendChildAt body mp (newSplitContainer g inv t anchor.href),
        { g with counter := g.counter + 3 }) ∧
    paneCount (appendChildAt body mp (newSplitContainer g inv t anchor.href)) =
      paneCount body + 1 ∧
    nodeAt (appendChildAt body mp (newSplitContainer g inv t anchor.href)) mp =
      some (pushChild (newSplitContainer g inv t anchor.href) mainN) := by
  refine ⟨?_, ?_, ?_⟩
  · rw [openInSplitMode_existing g t loc anchor direction body mp hmain]
    have hfc : (frameContainerLookup body anchor.frameId).getD mp = mp := by
      rw [hlook]
      rfl
    rw [addFrame_resolved { g with counter := g.counter + 1 } t direction inv body mp
      anchor.frameId anchor.href mp parentN hfc hinv hmp hpar,
      if_neg (by simpa using hcls)]
    rfl
  · have h1 := count_appendChildAt mp body mainN (newSplitContainer g inv t anchor.href)
      isIframeNode childIndep_isIframeNode hnode
    have h2 := countNodes_iframe_newSplit g inv t anchor.href
    simp only [paneCount]
    omega
  · exact nodeAt_modifyAt_self mp body mainN _ hnode

/-- Claim C6 witness: a split request from the fixture document with no
source frame id still produces one new pane, rooted at the main
container. -/
theorem C6_missing_source_fallback_witness :
    frameContainerLookup body1 anchorTop.frameId = none ∧
    paneCount (appendChildAt body1 [0]
      (newSplitContainer gen1 DIRECTION.horizontal 7 urlLink)) = paneCount body1 + 1 :=
  ⟨rfl,
    (C6_missing_source_fallback gen1 7 urlHome anchorTop DIRECTION.vertical
      DIRECTION.horizontal body1 [0] mainNode1 body1 rfl (by decide) rfl (by decide)
      rfl rfl (by decide)).2.1⟩

/- ### Claim C2 -/

/- The document produced by the very first split: the body holds one
root container of the requested direction with two child containers of
the inverse direction, the first holding the source pane (current URL
with text fragment), the second the target pane (anchor URL). -/
def firstSplitBody (g : Gen) (t : Nat) (loc : Url) (anchor : Anchor)
    (direction inv : String) : Node :=
  plainBody (.cons (Node.elem ("div") ("main_container")
    ["flex-container", "container-" ++ direction] none none
    (.cons (splitContainerNode (g.idFn (g.counter + 1)) inv
        (splitWrapperNode (g.idFn g.counter) t
          (URL.withTextFragmentFrom loc anchor.innerText)))
      (.cons (splitContainerNode (g.idFn (g.counter + 3)) inv
          (splitWrapperNode (g.idFn (g.counter + 2)) t anchor.href)) .nil))) .nil)

theorem openInSplitMode_fresh (g : Gen) (t : Nat) (loc : Url) (anchor : Anchor)
    (direction inv : String) (ch0 : NodeList)
    (hinv : DIRECTION.inverse direction = .ok inv)
    (hmain : docGetElementById (plainBody ch0) ("main_container") = none) :
    openInSplitMode g t loc anchor direction (plainBody ch0) =
      addFrame { g with counter := g.counter + 2 } t direction
        (plainBody (.cons (Node.elem ("div") ("main_container")
          ["flex-container", "container-" ++ direction] none none
          (.cons (splitContainerNode (g.idFn (g.counter + 1)) inv
            (splitWrapperNode (g.idFn g.counter) t
              (URL.withTextFragmentFrom loc anchor.innerText))) .nil)) .nil))
        [0] anchor.frameId anchor.href := by
  have hmain' : docGetElementById (Node.elem ("body") ("") [] none none ch0)
      ("main_container") = none := hmain
  unfold openInSplitMode
  simp only [createFrameFor_eq, getOrCreateContainer, hmain', hinv, createContainer,
    randomId, splitContainerNode, splitWrapperNode, splitPaneNode, setChildren, plainBody]

/-- Claim C2 (amended): the first split from a document without a
container tree replaces the body content with a root container of the
requested direction; when it completes, the tree holds three
flex containers, namely the root plus two children of the inverse
direction, and two panes: the source pane loading the current URL with
the text fragment and the target pane loading the anchor URL. -/
theorem C2_first_split_amended (g : Gen) (t : Nat) (loc : Url) (anchor : Anchor)
    (direction inv : String) (ch0 : NodeList)
    (hinv : DIRECTION.inverse direction = .ok inv)
    (hmain : docGetElementById (plainBody ch0) ("main_container") = none)
    (hfid : anchor.frameId = none) :
    openInSplitMode g t loc anchor direction (plainBody ch0) =
      .ok (firstSplitBody g t loc anchor direction inv,
        { g with counter := g.counter + 4 }) ∧
    containerCount (firstSplitBody g t loc anchor direction inv) = 3 ∧
    paneCount (firstSplitBody g t loc anchor direction inv) = 2 := by
  refine ⟨?_, rfl, rfl⟩
  rw [openInSplitMode_fresh g t loc anchor direction inv ch0 hinv hmain]
  rw [addFrame_resolved { g with counter := g.counter + 2 } t direction inv
    (plainBody (.cons (Node.elem ("div") ("main_container")
      ["flex-container", "container-" ++ direction] none none
      (.cons (splitContainerNode (g.idFn (g.counter + 1)) inv
        (splitWrapperNode (g.idFn g.counter) t
          (URL.withTextFragmentFrom loc anchor.innerText))) .nil)) .nil))
    [0] anchor.frameId anchor.href [0]
    (plainBody (.cons (Node.elem ("div") ("main_container")
      ["flex-container", "container-" ++ direction] none none
      (.cons (splitContainerNode (g.idFn (g.counter + 1)) inv
        (splitWrapperNode (g.idFn g.counter) t
          (URL.withTextFragmentFrom loc anchor.innerText))) .nil)) .nil))
    (by rw [hfid]; rfl) hinv (by simp) rfl,
    if_neg (fun hx => Bool.noConfusion hx)]
  rfl

/-- Claim C2 counterexample: the first split from an empty document
produces three flex containers, not two. -/
theorem C2_counterexample :
    (okBody (openInSplitMode gen0 5 urlHome anchorTop DIRECTION.vertical
      (plainBody .nil))).map containerCount = some 3 ∧
    ¬ (okBody (openInSplitMode gen0 5 urlHome anchorTop DIRECTION.vertical
      (plainBody .nil))).map containerCount = some 2 :=
  ⟨by decide, by decide⟩

/-- Claim C2 witness: the amended theorem applied to the fixture first
split. -/
theorem C2_first_split_amended_witness :
    docGetElementById (plainBody .nil) ("main_container") = none ∧
    openInSplitMode gen0 5 urlHome anchorTop DIRECTION.vertical (plainBody .nil) =
      .ok (firstSplitBody gen0 5 urlHome anchorTop DIRECTION.vertical DIRECTION.horizontal,
        { gen0 with counter := 4 }) :=
  ⟨by decide,
    (C2_first_split_amended gen0 5 urlHome anchorTop DIRECTION.vertical DIRECTION.horizontal
      .nil rfl (by decide) rfl).1⟩
